import Mathlib

/-!
Shallow embedding of `gpx_analyzer.py` (gpxray): the GPX anomaly analyzer
(speed / elevation / segment-continuity scans) and the `strip-privacy`
transform.  Python floats are modelled as real numbers, `datetime` instants
as real-valued seconds since an arbitrary epoch, and a raised Python
exception as `none` in the `Option` monad.
-/

namespace Gpxray

/-- A parsed trackpoint as produced by `GPXAnalyzer._parse_trackpoint`
(lines 39-47): latitude, longitude, elevation and timestamp are all
required; `speed` is a dataclass field defaulting to `0.0`. Timestamps are
modelled as seconds since an arbitrary epoch. -/
structure TrackPoint where
  lat : ℝ
  lon : ℝ
  ele : ℝ
  time : ℝ
  speed : ℝ := 0.0

/-- A `<trk>` element as the analyzer sees it: an optional `<name>` child,
an optional `<type>` child and the list of `<trkseg>` point lists. -/
structure Track where
  name : Option String
  ttype : Option String
  segments : List (List TrackPoint)

/-- An issue record as built by the three analysis methods
(a Python dict with keys `type`, `message`, `location`, `time`).  The
message string interpolates one numeric value formatted to two decimals
(for example `"High speed detected: {speed:.2f} km/h"`); the embedding
carries that exact numeric value in `value`.  `location` is the full
f-string `"Track {name}"` and `time` is `p1.time.isoformat()`, modelled as
the instant itself. -/
structure Issue where
  kind : String
  value : ℝ
  location : String
  time : ℝ

/-- `math.radians`: degrees to radians. -/
noncomputable def radians (x : ℝ) : ℝ := x * (Real.pi / 180)

/-- `GPXAnalyzer._haversine_distance` (lines 25-37): great-circle distance
in kilometres on a sphere of radius 6371 km, inputs in degrees. -/
noncomputable def haversine (lat1 lon1 lat2 lon2 : ℝ) : ℝ :=
  let R : ℝ := 6371
  let rlat1 := radians lat1
  let rlon1 := radians lon1
  let rlat2 := radians lat2
  let rlon2 := radians lon2
  let dlat := rlat2 - rlat1
  let dlon := rlon2 - rlon1
  let a := Real.sin (dlat / 2) ^ 2 +
    Real.cos rlat1 * Real.cos rlat2 * Real.sin (dlon / 2) ^ 2
  let c := 2 * Real.arcsin (Real.sqrt a)
  R * c

lemma sin_half_sub_sq_comm (x y : ℝ) :
    Real.sin ((x - y) / 2) ^ 2 = Real.sin ((y - x) / 2) ^ 2 := by
  have h : (x - y) / 2 = -((y - x) / 2) := by ring
  rw [h, Real.sin_neg, neg_sq]

lemma haversine_self (lat lon : ℝ) : haversine lat lon lat lon = 0 := by
  simp [haversine]

lemma haversine_comm (lat1 lon1 lat2 lon2 : ℝ) :
    haversine lat1 lon1 lat2 lon2 = haversine lat2 lon2 lat1 lon1 := by
  unfold haversine
  dsimp only
  rw [sin_half_sub_sq_comm (radians lat2) (radians lat1),
    sin_half_sub_sq_comm (radians lon2) (radians lon1),
    mul_comm (Real.cos (radians lat1)) (Real.cos (radians lat2))]

/-- Elapsed time between two trackpoints in hours:
`(p2.time - p1.time).total_seconds() / 3600` (line 60). -/
noncomputable def elapsedHours (p1 p2 : TrackPoint) : ℝ :=
  (p2.time - p1.time) / 3600

/-- Body of the speed loop for one consecutive pair (lines 58-70): when the
elapsed time is positive and the speed `distance / time_diff` exceeds the
threshold, one speed issue is produced, carrying the speed value, the label
`"Track " ++ name` and the earlier point's timestamp; otherwise nothing. -/
noncomputable def speedIssuesOfPair (maxSpeed : ℝ) (n : String)
    (p1 p2 : TrackPoint) : List Issue :=
  let d := haversine p1.lat p1.lon p2.lat p2.lon
  let td := elapsedHours p1 p2
  if 0 < td then
    if maxSpeed < d / td then
      [⟨"speed", d / td, "Track " ++ n, p1.time⟩]
    else []
  else []

/-- The inner loop of `analyze_speed` over one segment's points
(lines 57-70), with the track's optional name.  Building an issue reads
`trk.find('name').text`; when the track has no `<name>` child this raises
`AttributeError` (`None.text`), modelled as `none`.  Pairs that emit no
issue never touch the name. -/
noncomputable def analyzeSpeedPairs (maxSpeed : ℝ) (name? : Option String) :
    List TrackPoint → Option (List Issue)
  | p1 :: p2 :: rest =>
    let d := haversine p1.lat p1.lon p2.lat p2.lon
    let td := elapsedHours p1 p2
    let tail := analyzeSpeedPairs maxSpeed name? (p2 :: rest)
    if 0 < td then
      if maxSpeed < d / td then
        match name? with
        | none => none
        | some n => tail.map (fun tl => ⟨"speed", d / td, "Track " ++ n, p1.time⟩ :: tl)
      else tail
    else tail
  | _ => some []

/-- The segment loop of `analyze_speed` (lines 54-70): issues of all
segments of one track are appended in traversal order; a raised exception
aborts the whole call. -/
noncomputable def analyzeSpeedSegs (maxSpeed : ℝ) (name? : Option String) :
    List (List TrackPoint) → Option (List Issue)
  | [] => some []
  | seg :: rest => do
    let i1 ← analyzeSpeedPairs maxSpeed name? seg
    let i2 ← analyzeSpeedSegs maxSpeed name? rest
    pure (i1 ++ i2)

/-- `GPXAnalyzer.analyze_speed` (lines 49-72), over the parsed track list.
The default `max_speed_threshold` is `100.0`. -/
noncomputable def analyze_speed (maxSpeed : ℝ) :
    List Track → Option (List Issue)
  | [] => some []
  | t :: rest => do
    let i1 ← analyzeSpeedSegs maxSpeed t.name t.segments
    let i2 ← analyze_speed maxSpeed rest
    pure (i1 ++ i2)

/-- Body of the elevation loop for one consecutive pair (lines 82-92): one
elevation issue carrying `abs (p2.ele - p1.ele)` exactly when that change
exceeds the threshold; no time dimension involved. -/
noncomputable def elevationIssuesOfPair (maxChange : ℝ) (n : String)
    (p1 p2 : TrackPoint) : List Issue :=
  if maxChange < |p2.ele - p1.ele| then
    [⟨"elevation", |p2.ele - p1.ele|, "Track " ++ n, p1.time⟩]
  else []

/-- The inner loop of `analyze_elevation` over one segment (lines 82-92). -/
noncomputable def analyzeElevationPairs (maxChange : ℝ) (name? : Option String) :
    List TrackPoint → Option (List Issue)
  | p1 :: p2 :: rest =>
    let tail := analyzeElevationPairs maxChange name? (p2 :: rest)
    if maxChange < |p2.ele - p1.ele| then
      match name? with
      | none => none
      | some n =>
        tail.map (fun tl => ⟨"elevation", |p2.ele - p1.ele|, "Track " ++ n, p1.time⟩ :: tl)
    else tail
  | _ => some []

/-- The segment loop of `analyze_elevation` (lines 78-92). -/
noncomputable def analyzeElevationSegs (maxChange : ℝ) (name? : Option String) :
    List (List TrackPoint) → Option (List Issue)
  | [] => some []
  | seg :: rest => do
    let i1 ← analyzeElevationPairs maxChange name? seg
    let i2 ← analyzeElevationSegs maxChange name? rest
    pure (i1 ++ i2)

/-- `GPXAnalyzer.analyze_elevation` (lines 74-94).  The default
`max_elevation_change` is `100.0`. -/
noncomputable def analyze_elevation (maxChange : ℝ) :
    List Track → Option (List Issue)
  | [] => some []
  | t :: rest => do
    let i1 ← analyzeElevationSegs maxChange t.name t.segments
    let i2 ← analyze_elevation maxChange rest
    pure (i1 ++ i2)

/-- Body of the continuity loop for one consecutive pair of segments
(lines 107-118): when both segments are non-empty and the gap from the last
point of the first to the first point of the second exceeds `max_gap`
seconds, one continuity issue anchored at that last point is produced. -/
noncomputable def continuityIssuesOfPair (maxGap : ℝ) (n : String)
    (s1 s2 : List TrackPoint) : List Issue :=
  match s1.getLast?, s2.head? with
  | some lastP, some firstP =>
    if maxGap < firstP.time - lastP.time then
      [⟨"continuity", firstP.time - lastP.time, "Track " ++ n, lastP.time⟩]
    else []
  | _, _ => []

/-- The segment-pair loop of `analyze_segment_continuity` (lines 103-118)
for one track. -/
noncomputable def analyzeContinuityPairs (maxGap : ℝ) (name? : Option String) :
    List (List TrackPoint) → Option (List Issue)
  | s1 :: s2 :: rest =>
    let tail := analyzeContinuityPairs maxGap name? (s2 :: rest)
    match s1.getLast?, s2.head? with
    | some lastP, some firstP =>
      if maxGap < firstP.time - lastP.time then
        match name? with
        | none => none
        | some n =>
          tail.map
            (fun tl => ⟨"continuity", firstP.time - lastP.time, "Track " ++ n, lastP.time⟩ :: tl)
      else tail
    | _, _ => tail
  | _ => some []

/-- `GPXAnalyzer.analyze_segment_continuity` (lines 96-120).  The default
`max_gap` is `300.0` seconds. -/
noncomputable def analyze_segment_continuity (maxGap : ℝ) :
    List Track → Option (List Issue)
  | [] => some []
  | t :: rest => do
    let i1 ← analyzeContinuityPairs maxGap t.name t.segments
    let i2 ← analyze_segment_continuity maxGap rest
    pure (i1 ++ i2)

/-- On a named track the speed scan never raises and returns exactly the
concatenation, over consecutive point pairs, of the per-pair issues. -/
lemma analyzeSpeedPairs_named (maxSpeed : ℝ) (n : String) :
    ∀ pts : List TrackPoint,
      analyzeSpeedPairs maxSpeed (some n) pts =
        some ((pts.zip pts.tail).flatMap fun q => speedIssuesOfPair maxSpeed n q.1 q.2)
  | [] => rfl
  | [_] => rfl
  | p1 :: p2 :: rest => by
    have ih := analyzeSpeedPairs_named maxSpeed n (p2 :: rest)
    simp only [analyzeSpeedPairs, ih, List.tail_cons, List.zip_cons_cons,
      List.flatMap_cons, speedIssuesOfPair]
    by_cases h1 : 0 < elapsedHours p1 p2
    · by_cases h2 :
        maxSpeed < haversine p1.lat p1.lon p2.lat p2.lon / elapsedHours p1 p2
      · simp [h1, h2]
      · simp [h1, h2]
    · simp [h1]

/-- Pairs with non-positive elapsed time contribute nothing, whatever the
distance and whether or not the track is named: a segment all of whose
consecutive pairs have non-positive elapsed time scans to an empty issue
list with no error. -/
lemma analyzeSpeedPairs_all_nonpos (maxSpeed : ℝ) (name? : Option String) :
    ∀ pts : List TrackPoint,
      (∀ q ∈ pts.zip pts.tail, elapsedHours q.1 q.2 ≤ 0) →
      analyzeSpeedPairs maxSpeed name? pts = some []
  | [] => fun _ => rfl
  | [_] => fun _ => rfl
  | p1 :: p2 :: rest => fun h => by
    have h1 : elapsedHours p1 p2 ≤ 0 := by
      refine h (p1, p2) ?_
      simp
    have ih := analyzeSpeedPairs_all_nonpos maxSpeed name? (p2 :: rest)
      (fun q hq => by
        refine h q ?_
        simp only [List.tail_cons, List.zip_cons_cons] at hq ⊢
        exact List.mem_cons_of_mem _ hq)
    simp only [analyzeSpeedPairs, if_neg (not_lt.mpr h1)]
    exact ih

/-- On a named track the elevation scan never raises and returns exactly
the concatenation, over consecutive point pairs, of the per-pair issues. -/
lemma analyzeElevationPairs_named (maxChange : ℝ) (n : String) :
    ∀ pts : List TrackPoint,
      analyzeElevationPairs maxChange (some n) pts =
        some ((pts.zip pts.tail).flatMap fun q => elevationIssuesOfPair maxChange n q.1 q.2)
  | [] => rfl
  | [_] => rfl
  | p1 :: p2 :: rest => by
    have ih := analyzeElevationPairs_named maxChange n (p2 :: rest)
    simp only [analyzeElevationPairs, ih, List.tail_cons, List.zip_cons_cons,
      List.flatMap_cons, elevationIssuesOfPair]
    by_cases h1 : maxChange < |p2.ele - p1.ele|
    · simp [h1]
    · simp [h1]

/-- On a named track the continuity scan never raises and returns exactly
the concatenation, over consecutive segment pairs, of the per-pair
issues. -/
lemma analyzeContinuityPairs_named (maxGap : ℝ) (n : String) :
    ∀ segs : List (List TrackPoint),
      analyzeContinuityPairs maxGap (some n) segs =
        some ((segs.zip segs.tail).flatMap fun q => continuityIssuesOfPair maxGap n q.1 q.2)
  | [] => rfl
  | [_] => rfl
  | s1 :: s2 :: rest => by
    have ih := analyzeContinuityPairs_named maxGap n (s2 :: rest)
    simp only [analyzeContinuityPairs, ih, List.tail_cons, List.zip_cons_cons,
      List.flatMap_cons, continuityIssuesOfPair]
    cases hl : s1.getLast? with
    | none => simp
    | some lastP =>
      cases hh : s2.head? with
      | none => simp
      | some firstP =>
        by_cases hg : maxGap < firstP.time - lastP.time
        · simp [hg]
        · simp [hg]

/-- A raw `<trkpt>` element as `strip_privacy` reads it: `lat`/`lon`
attributes (required by the float conversions at lines 207-210 and
239-240), an optional `<ele>` child and an optional `<time>` child. -/
structure GpxPoint where
  lat : ℝ
  lon : ℝ
  ele : Option ℝ
  time : Option ℝ

/-- A `<trk>` element as `strip_privacy` reads it. -/
structure GpxTrack where
  name : Option String
  ttype : Option String
  segments : List (List GpxPoint)

/-- An output trackpoint written by `strip_privacy` (lines 245-252): only
the `lat`/`lon` attributes and, when present in the source, the `<ele>`
child are copied.  No `<time>` child and no speed are ever written, so the
output point type has no such fields. -/
structure OutPoint where
  lat : ℝ
  lon : ℝ
  ele : Option ℝ

/-- An output track written by `strip_privacy` (lines 182-252): source
name and type (when present) plus the processed segments. -/
structure OutTrack where
  name : Option String
  ttype : Option String
  segments : List (List OutPoint)

/-- Configuration of one `strip-privacy` invocation after the mile
conversions of lines 178-179; `anchor` is the start location, present
exactly when both `--start-lat` and `--start-lon` were given (line 238
skips the radius check otherwise). -/
structure StripConfig where
  trimKm : ℝ
  radiusKm : ℝ
  anchor : Option (ℝ × ℝ)

/-- Miles-to-kilometres conversion used for both `trim_distance` and
`start_radius` (lines 178-179). -/
noncomputable def milesToKm (m : ℝ) : ℝ := m * 1.60934

/-- The expression `GPXAnalyzer._haversine_distance(lat1, lon1, lat2, lon2)`
(lines 211 and 241).  `_haversine_distance` fetched through the class is a
plain five-parameter function `(self, lat1, lon1, lat2, lon2)`; the four
positional arguments bind to `(self, lat1, lon1, lat2)`, `lon2` is
missing, and Python raises `TypeError` before the body runs, whatever the
arguments.  Modelled as an always-failing call. -/
def classHaversineCall (_lat1 _lon1 _lat2 _lon2 : ℝ) : Option ℝ := none

/-- The cumulative-distance loop (lines 204-213) in the `Option` monad:
iteration `i` invokes the class call on points `i` and `i + 1` and appends
the running total.  Any segment with at least two points raises at the
first iteration. -/
def cumulativeDistancesAux (total : ℝ) : List GpxPoint → Option (List ℝ)
  | p1 :: p2 :: rest => do
    let d ← classHaversineCall p1.lat p1.lon p2.lat p2.lon
    let tl ← cumulativeDistancesAux (total + d) (p2 :: rest)
    pure ((total + d) :: tl)
  | _ => some []

/-- `distances` of lines 204-213, starting from `total_distance = 0`. -/
def cumulativeDistances (pts : List GpxPoint) : Option (List ℝ) :=
  cumulativeDistancesAux 0 pts

/-- `start_idx` (lines 216-223): the first index whose cumulative distance
reaches the trim distance; `0` when the scan finds none. -/
noncomputable def startIdxOf (ds : List ℝ) (trimKm : ℝ) : ℕ :=
  match ds.findIdx? (fun d => decide (trimKm ≤ d)) with
  | some i => i
  | none => 0

/-- `end_idx` (lines 226-229): scanning the cumulative distances from the
end, the first (largest) index `i` with `total - ds[i] ≥ trim` gives
`end_idx = i + 1`; the number of points when the scan finds none. -/
noncomputable def endIdxOf (ds : List ℝ) (total trimKm : ℝ) (numPts : ℕ) : ℕ :=
  match ds.enum.reverse.find? (fun p => decide (trimKm ≤ total - p.2)) with
  | some p => p.1 + 1
  | none => numPts

/-- The output-point loop (lines 232-252): point `k` is dropped when
outside `[start_idx, end_idx)`; otherwise, when an anchor is configured,
its distance to the anchor is computed by the failing class call (line
241) and the point is dropped when that distance is at most the radius; a
surviving point keeps only `lat`, `lon` and the optional `ele`. -/
noncomputable def stripPoints (cfg : StripConfig) (startIdx endIdx : ℕ) :
    ℕ → List GpxPoint → Option (List OutPoint)
  | _, [] => some []
  | k, p :: rest =>
    if k < startIdx ∨ endIdx ≤ k then stripPoints cfg startIdx endIdx (k + 1) rest
    else
      match cfg.anchor with
      | some a => do
        let d ← classHaversineCall a.1 a.2 p.lat p.lon
        if d ≤ cfg.radiusKm then stripPoints cfg startIdx endIdx (k + 1) rest
        else
          let tl ← stripPoints cfg startIdx endIdx (k + 1) rest
          pure (⟨p.lat, p.lon, p.ele⟩ :: tl)
      | none => do
        let tl ← stripPoints cfg startIdx endIdx (k + 1) rest
        pure (⟨p.lat, p.lon, p.ele⟩ :: tl)

/-- Per-segment processing of `strip_privacy` (lines 195-252); an empty
input segment is kept as an empty output segment (`if not trkpts:
continue`, the `<trkseg>` shell having already been created). -/
noncomputable def stripSegment (cfg : StripConfig) (pts : List GpxPoint) :
    Option (List OutPoint) :=
  match pts with
  | [] => some []
  | _ :: _ => do
    let ds ← cumulativeDistances pts
    let total := ds.getLastD 0
    stripPoints cfg (startIdxOf ds cfg.trimKm) (endIdxOf ds total cfg.trimKm pts.length) 0 pts

/-- The segment loop of `strip_privacy` for one track. -/
noncomputable def stripSegments (cfg : StripConfig) :
    List (List GpxPoint) → Option (List (List OutPoint))
  | [] => some []
  | s :: rest => do
    let s' ← stripSegment cfg s
    let rest' ← stripSegments cfg rest
    pure (s' :: rest')

/-- The track loop of `strip_privacy` (lines 182-252): each output track
keeps the source's name and type and carries the processed segments. -/
noncomputable def stripPrivacyRun (cfg : StripConfig) :
    List GpxTrack → Option (List OutTrack)
  | [] => some []
  | t :: rest => do
    let segs ← stripSegments cfg t.segments
    let rest' ← stripPrivacyRun cfg rest
    pure (⟨t.name, t.ttype, segs⟩ :: rest')

/-- Observable outcome of one `strip-privacy` invocation: the file content
written on success (`none` = no output artifact), the message on the error
channel, and the process exit code. -/
structure CmdResult where
  written : Option (List OutTrack)
  errMsg : Option String
  exitCode : ℕ

/-- The `strip_privacy` command (lines 161-263).  The whole body runs in
one `try`; on any exception — including a malformed input file, modelled
as `parsed = none` — a descriptive message is echoed to the error channel
and the process exits with code 1, the output file never having been
written (the write at line 256 is the last step of the `try`). -/
noncomputable def strip_privacy (cfg : StripConfig)
    (parsed : Option (List GpxTrack)) : CmdResult :=
  match parsed with
  | none => ⟨none, some "Error processing GPX file", 1⟩
  | some tracks =>
    match stripPrivacyRun cfg tracks with
    | none => ⟨none, some "Error processing GPX file", 1⟩
    | some out => ⟨some out, none, 0⟩

/-- A consecutive pair violates the speed threshold: positive elapsed time
and speed above the maximum (the condition under which lines 65-70 build
an issue). -/
noncomputable def speedViolation (maxSpeed : ℝ) (p1 p2 : TrackPoint) : Prop :=
  0 < elapsedHours p1 p2 ∧
  maxSpeed < haversine p1.lat p1.lon p2.lat p2.lon / elapsedHours p1 p2

/-- A consecutive pair violates the elevation threshold (line 86). -/
def elevationViolation (maxChange : ℝ) (p1 p2 : TrackPoint) : Prop :=
  maxChange < |p2.ele - p1.ele|

/-- A consecutive segment pair violates the continuity threshold: both
segments non-empty and the gap above the maximum (lines 107-112). -/
def continuityViolation (maxGap : ℝ) (s1 s2 : List TrackPoint) : Prop :=
  ∃ lastP firstP, s1.getLast? = some lastP ∧ s2.head? = some firstP ∧
    maxGap < firstP.time - lastP.time

/-- On an unnamed track the point loop of the speed scan raises exactly
when some pair violates the threshold (the issue build at line 68 reads
the absent name), and otherwise completes with no issues. -/
lemma analyzeSpeedPairs_none (maxSpeed : ℝ) :
    ∀ pts : List TrackPoint,
      (analyzeSpeedPairs maxSpeed none pts = none ↔
        ∃ q ∈ pts.zip pts.tail, speedViolation maxSpeed q.1 q.2) ∧
      (analyzeSpeedPairs maxSpeed none pts = none ∨
        analyzeSpeedPairs maxSpeed none pts = some [])
  | [] => by simp [analyzeSpeedPairs]
  | [_] => by simp [analyzeSpeedPairs]
  | p1 :: p2 :: rest => by
    obtain ⟨ih1, ih2⟩ := analyzeSpeedPairs_none maxSpeed (p2 :: rest)
    by_cases hv : speedViolation maxSpeed p1 p2
    · have hnone : analyzeSpeedPairs maxSpeed none (p1 :: p2 :: rest) = none := by
        simp only [analyzeSpeedPairs]
        rw [if_pos hv.1, if_pos hv.2]
      refine ⟨?_, Or.inl hnone⟩
      rw [hnone]
      simp only [List.tail_cons, List.zip_cons_cons, List.mem_cons, true_iff]
      exact ⟨(p1, p2), Or.inl rfl, hv⟩
    · have heq : analyzeSpeedPairs maxSpeed none (p1 :: p2 :: rest) =
          analyzeSpeedPairs maxSpeed none (p2 :: rest) := by
        simp only [analyzeSpeedPairs]
        by_cases h1 : 0 < elapsedHours p1 p2
        · rw [if_pos h1, if_neg (fun h2 => hv ⟨h1, h2⟩)]
        · rw [if_neg h1]
      refine ⟨?_, by rw [heq]; exact ih2⟩
      rw [heq, ih1]
      simp only [List.tail_cons, List.zip_cons_cons, List.mem_cons]
      constructor
      · rintro ⟨q, hq, hqv⟩
        exact ⟨q, Or.inr hq, hqv⟩
      · rintro ⟨q, hq | hq, hqv⟩
        · rw [hq] at hqv
          exact absurd hqv hv
        · exact ⟨q, hq, hqv⟩

/-- On an unnamed track the point loop of the elevation scan raises
exactly when some pair violates the threshold, and otherwise completes
with no issues. -/
lemma analyzeElevationPairs_none (maxChange : ℝ) :
    ∀ pts : List TrackPoint,
      (analyzeElevationPairs maxChange none pts = none ↔
        ∃ q ∈ pts.zip pts.tail, elevationViolation maxChange q.1 q.2) ∧
      (analyzeElevationPairs maxChange none pts = none ∨
        analyzeElevationPairs maxChange none pts = some [])
  | [] => by simp [analyzeElevationPairs]
  | [_] => by simp [analyzeElevationPairs]
  | p1 :: p2 :: rest => by
    obtain ⟨ih1, ih2⟩ := analyzeElevationPairs_none maxChange (p2 :: rest)
    by_cases hv : elevationViolation maxChange p1 p2
    · have hv' : maxChange < |p2.ele - p1.ele| := hv
      have hnone : analyzeElevationPairs maxChange none (p1 :: p2 :: rest) = none := by
        simp only [analyzeElevationPairs]
        rw [if_pos hv']
      refine ⟨?_, Or.inl hnone⟩
      rw [hnone]
      simp only [List.tail_cons, List.zip_cons_cons, List.mem_cons, true_iff]
      exact ⟨(p1, p2), Or.inl rfl, hv⟩
    · have hv' : ¬ maxChange < |p2.ele - p1.ele| := fun hg => hv hg
      have heq : analyzeElevationPairs maxChange none (p1 :: p2 :: rest) =
          analyzeElevationPairs maxChange none (p2 :: rest) := by
        simp only [analyzeElevationPairs]
        rw [if_neg hv']
      refine ⟨?_, by rw [heq]; exact ih2⟩
      rw [heq, ih1]
      simp only [List.tail_cons, List.zip_cons_cons, List.mem_cons]
      constructor
      · rintro ⟨q, hq, hqv⟩
        exact ⟨q, Or.inr hq, hqv⟩
      · rintro ⟨q, hq | hq, hqv⟩
        · rw [hq] at hqv
          exact absurd hqv hv
        · exact ⟨q, hq, hqv⟩

/-- On an unnamed track the segment-pair loop of the continuity scan
raises exactly when some consecutive segment pair violates the threshold,
and otherwise completes with no issues. -/
lemma analyzeContinuityPairs_none (maxGap : ℝ) :
    ∀ segs : List (List TrackPoint),
      (analyzeContinuityPairs maxGap none segs = none ↔
        ∃ q ∈ segs.zip segs.tail, continuityViolation maxGap q.1 q.2) ∧
      (analyzeContinuityPairs maxGap none segs = none ∨
        analyzeContinuityPairs maxGap none segs = some [])
  | [] => by simp [analyzeContinuityPairs]
  | [_] => by simp [analyzeContinuityPairs]
  | s1 :: s2 :: rest => by
    obtain ⟨ih1, ih2⟩ := analyzeContinuityPairs_none maxGap (s2 :: rest)
    by_cases hv : continuityViolation maxGap s1 s2
    · obtain ⟨lastP, firstP, hl, hh, hg⟩ := hv
      have hnone : analyzeContinuityPairs maxGap none (s1 :: s2 :: rest) = none := by
        simp only [analyzeContinuityPairs, hl, hh]
        rw [if_pos hg]
      refine ⟨?_, Or.inl hnone⟩
      rw [hnone]
      simp only [List.tail_cons, List.zip_cons_cons, List.mem_cons, true_iff]
      exact ⟨(s1, s2), Or.inl rfl, lastP, firstP, hl, hh, hg⟩
    · have heq : analyzeContinuityPairs maxGap none (s1 :: s2 :: rest) =
          analyzeContinuityPairs maxGap none (s2 :: rest) := by
        simp only [analyzeContinuityPairs]
        cases hl : s1.getLast? with
        | none => rfl
        | some lastP =>
          cases hh : s2.head? with
          | none => rfl
          | some firstP =>
            have hng : ¬ maxGap < firstP.time - lastP.time :=
              fun hg => hv ⟨lastP, firstP, hl, hh, hg⟩
            dsimp only
            rw [if_neg hng]
      refine ⟨?_, by rw [heq]; exact ih2⟩
      rw [heq, ih1]
      simp only [List.tail_cons, List.zip_cons_cons, List.mem_cons]
      constructor
      · rintro ⟨q, hq, hqv⟩
        exact ⟨q, Or.inr hq, hqv⟩
      · rintro ⟨q, hq | hq, hqv⟩
        · rw [hq] at hqv
          exact absurd hqv hv
        · exact ⟨q, hq, hqv⟩

/-- An empty segment is processed into an empty output segment. -/
lemma stripSegment_nil (cfg : StripConfig) : stripSegment cfg [] = some [] := rfl

/-- A segment with at least two points raises at the first
cumulative-distance computation. -/
lemma stripSegment_two (cfg : StripConfig) (p1 p2 : GpxPoint)
    (rest : List GpxPoint) : stripSegment cfg (p1 :: p2 :: rest) = none := rfl

/-- A one-point segment skips the distance loop (no pairs); the point is
inside the trivial trim range, so with no anchor it survives with only
`lat`, `lon` and `ele`, and with an anchor the radius check raises. -/
lemma stripSegment_single (cfg : StripConfig) (p : GpxPoint) :
    stripSegment cfg [p] =
      (match cfg.anchor with
      | none => some [⟨p.lat, p.lon, p.ele⟩]
      | some _ => none) := by
  obtain ⟨trim, rad, anchor⟩ := cfg
  cases anchor with
  | none => rfl
  | some a => rfl

/-- Exact failure condition of per-segment processing. -/
lemma stripSegment_none_iff (cfg : StripConfig) : ∀ s : List GpxPoint,
    stripSegment cfg s = none ↔ 2 ≤ s.length ∨ (cfg.anchor ≠ none ∧ s ≠ [])
  | [] => by simp [stripSegment_nil]
  | [p] => by
    rw [stripSegment_single]
    cases ha : cfg.anchor with
    | none => simp
    | some a => simp
  | p1 :: p2 :: rest => by
    have h2 : (2 : ℕ) ≤ (p1 :: p2 :: rest).length := by
      simp [List.length_cons]
    exact iff_of_true (stripSegment_two cfg p1 p2 rest) (Or.inl h2)

/-- Exact failure condition of the segment loop. -/
lemma stripSegments_none_iff (cfg : StripConfig) : ∀ segs : List (List GpxPoint),
    stripSegments cfg segs = none ↔
      ∃ s ∈ segs, 2 ≤ s.length ∨ (cfg.anchor ≠ none ∧ s ≠ [])
  | [] => by simp [stripSegments]
  | s :: rest => by
    have ih := stripSegments_none_iff cfg rest
    cases hs : stripSegment cfg s with
    | none =>
      have hall : stripSegments cfg (s :: rest) = none := by
        simp [stripSegments, hs]
      exact iff_of_true hall
        ⟨s, List.mem_cons_self s rest, (stripSegment_none_iff cfg s).mp hs⟩
    | some out =>
      have heq : (stripSegments cfg (s :: rest) = none) ↔
          (stripSegments cfg rest = none) := by
        cases hr : stripSegments cfg rest with
        | none => simp [stripSegments, hs, hr]
        | some o2 => simp [stripSegments, hs, hr]
      rw [heq, ih]
      constructor
      · rintro ⟨x, hx, hP⟩
        exact ⟨x, List.mem_cons_of_mem s hx, hP⟩
      · rintro ⟨x, hx, hP⟩
        rcases List.mem_cons.mp hx with he | hxr
        · exfalso
          rw [he] at hP
          rw [(stripSegment_none_iff cfg s).mpr hP] at hs
          exact Option.noConfusion hs
        · exact ⟨x, hxr, hP⟩

/-- Exact failure condition of the whole transform. -/
lemma stripPrivacyRun_none_iff (cfg : StripConfig) : ∀ ts : List GpxTrack,
    stripPrivacyRun cfg ts = none ↔
      ∃ t ∈ ts, ∃ s ∈ t.segments, 2 ≤ s.length ∨ (cfg.anchor ≠ none ∧ s ≠ [])
  | [] => by simp [stripPrivacyRun]
  | t :: rest => by
    have ih := stripPrivacyRun_none_iff cfg rest
    cases hs : stripSegments cfg t.segments with
    | none =>
      have hall : stripPrivacyRun cfg (t :: rest) = none := by
        simp [stripPrivacyRun, hs]
      exact iff_of_true hall
        ⟨t, List.mem_cons_self t rest, (stripSegments_none_iff cfg t.segments).mp hs⟩
    | some out =>
      have heq : (stripPrivacyRun cfg (t :: rest) = none) ↔
          (stripPrivacyRun cfg rest = none) := by
        cases hr : stripPrivacyRun cfg rest with
        | none => simp [stripPrivacyRun, hs, hr]
        | some o2 => simp [stripPrivacyRun, hs, hr]
      rw [heq, ih]
      constructor
      · rintro ⟨x, hx, hP⟩
        exact ⟨x, List.mem_cons_of_mem t hx, hP⟩
      · rintro ⟨x, hx, hP⟩
        rcases List.mem_cons.mp hx with he | hxr
        · exfalso
          rw [he] at hP
          rw [(stripSegments_none_iff cfg t.segments).mpr hP] at hs
          exact Option.noConfusion hs
        · exact ⟨x, hxr, hP⟩

/-- Lift of `analyzeSpeedPairs_none` to the segment loop. -/
lemma analyzeSpeedSegs_none (maxSpeed : ℝ) :
    ∀ segs : List (List TrackPoint),
      (analyzeSpeedSegs maxSpeed none segs = none ↔
        ∃ s ∈ segs, ∃ q ∈ s.zip s.tail, speedViolation maxSpeed q.1 q.2) ∧
      (analyzeSpeedSegs maxSpeed none segs = none ∨
        analyzeSpeedSegs maxSpeed none segs = some [])
  | [] => by simp [analyzeSpeedSegs]
  | seg :: rest => by
    obtain ⟨ph1, ph2⟩ := analyzeSpeedPairs_none maxSpeed seg
    obtain ⟨ih1, ih2⟩ := analyzeSpeedSegs_none maxSpeed rest
    rcases ph2 with hp | hp
    · have hnone : analyzeSpeedSegs maxSpeed none (seg :: rest) = none := by
        simp [analyzeSpeedSegs, hp]
      refine ⟨?_, Or.inl hnone⟩
      rw [hnone]
      simp only [true_iff]
      exact ⟨seg, List.mem_cons_self seg rest, ph1.mp hp⟩
    · rcases ih2 with hr | hr
      · have hnone : analyzeSpeedSegs maxSpeed none (seg :: rest) = none := by
          simp [analyzeSpeedSegs, hp, hr]
        refine ⟨?_, Or.inl hnone⟩
        rw [hnone]
        simp only [true_iff]
        obtain ⟨s, hs, hP⟩ := ih1.mp hr
        exact ⟨s, List.mem_cons_of_mem seg hs, hP⟩
      · have hsome : analyzeSpeedSegs maxSpeed none (seg :: rest) = some [] := by
          simp [analyzeSpeedSegs, hp, hr]
        refine ⟨iff_of_false (fun hc => ?_) (fun hex => ?_), Or.inr hsome⟩
        · rw [hsome] at hc
          exact Option.noConfusion hc
        · obtain ⟨s, hs, hP⟩ := hex
          rcases List.mem_cons.mp hs with hseq | hsr
          · rw [hseq] at hP
            rw [ph1.mpr hP] at hp
            exact Option.noConfusion hp
          · rw [ih1.mpr ⟨s, hsr, hP⟩] at hr
            exact Option.noConfusion hr

/-- Lift of `analyzeElevationPairs_none` to the segment loop. -/
lemma analyzeElevationSegs_none (maxChange : ℝ) :
    ∀ segs : List (List TrackPoint),
      (analyzeElevationSegs maxChange none segs = none ↔
        ∃ s ∈ segs, ∃ q ∈ s.zip s.tail, elevationViolation maxChange q.1 q.2) ∧
      (analyzeElevationSegs maxChange none segs = none ∨
        analyzeElevationSegs maxChange none segs = some [])
  | [] => by simp [analyzeElevationSegs]
  | seg :: rest => by
    obtain ⟨ph1, ph2⟩ := analyzeElevationPairs_none maxChange seg
    obtain ⟨ih1, ih2⟩ := analyzeElevationSegs_none maxChange rest
    rcases ph2 with hp | hp
    · have hnone : analyzeElevationSegs maxChange none (seg :: rest) = none := by
        simp [analyzeElevationSegs, hp]
      refine ⟨?_, Or.inl hnone⟩
      rw [hnone]
      simp only [true_iff]
      exact ⟨seg, List.mem_cons_self seg rest, ph1.mp hp⟩
    · rcases ih2 with hr | hr
      · have hnone : analyzeElevationSegs maxChange none (seg :: rest) = none := by
          simp [analyzeElevationSegs, hp, hr]
        refine ⟨?_, Or.inl hnone⟩
        rw [hnone]
        simp only [true_iff]
        obtain ⟨s, hs, hP⟩ := ih1.mp hr
        exact ⟨s, List.mem_cons_of_mem seg hs, hP⟩
      · have hsome : analyzeElevationSegs maxChange none (seg :: rest) = some [] := by
          simp [analyzeElevationSegs, hp, hr]
        refine ⟨iff_of_false (fun hc => ?_) (fun hex => ?_), Or.inr hsome⟩
        · rw [hsome] at hc
          exact Option.noConfusion hc
        · obtain ⟨s, hs, hP⟩ := hex
          rcases List.mem_cons.mp hs with hseq | hsr
          · rw [hseq] at hP
            rw [ph1.mpr hP] at hp
            exact Option.noConfusion hp
          · rw [ih1.mpr ⟨s, hsr, hP⟩] at hr
            exact Option.noConfusion hr

/-- Lift of `analyzeSpeedPairs_named` to the segment loop. -/
lemma analyzeSpeedSegs_named (maxSpeed : ℝ) (n : String) :
    ∀ segs : List (List TrackPoint),
      analyzeSpeedSegs maxSpeed (some n) segs =
        some (segs.flatMap fun s =>
          (s.zip s.tail).flatMap fun q => speedIssuesOfPair maxSpeed n q.1 q.2)
  | [] => rfl
  | seg :: rest => by
    have ih := analyzeSpeedSegs_named maxSpeed n rest
    simp [analyzeSpeedSegs, analyzeSpeedPairs_named, ih]

/-- Lift of `analyzeElevationPairs_named` to the segment loop. -/
lemma analyzeElevationSegs_named (maxChange : ℝ) (n : String) :
    ∀ segs : List (List TrackPoint),
      analyzeElevationSegs maxChange (some n) segs =
        some (segs.flatMap fun s =>
          (s.zip s.tail).flatMap fun q => elevationIssuesOfPair maxChange n q.1 q.2)
  | [] => rfl
  | seg :: rest => by
    have ih := analyzeElevationSegs_named maxChange n rest
    simp [analyzeElevationSegs, analyzeElevationPairs_named, ih]

end Gpxray

namespace Gpxray

/-- **C5.** Haversine identity and symmetry: the distance from any point to
itself is `0`, and the distance is symmetric in its two endpoints, for the
haversine formula on a sphere of radius 6371 km with degree inputs
converted to radians (lines 25-37). -/
theorem haversine_identity_and_symmetry :
    (∀ lat lon : ℝ, haversine lat lon lat lon = 0) ∧
    (∀ lat1 lon1 lat2 lon2 : ℝ,
      haversine lat1 lon1 lat2 lon2 = haversine lat2 lon2 lat1 lon1) :=
  ⟨haversine_self, haversine_comm⟩

/-- **C1.** Speed scan correctness: on a named track, `analyze_speed`
returns exactly the concatenation, over every segment and every
consecutive point pair, of that pair's issues; and for a pair with
positive elapsed time the pair's issues are one speed issue — carrying the
speed `haversine distance / elapsed hours`, the track label and the
earlier point's timestamp (the message renders that carried value to two
decimals) — exactly when the speed exceeds the threshold, and no issue
otherwise. -/
theorem analyze_speed_scan_correct (maxSpeed : ℝ) (n : String)
    (tt : Option String) (segs : List (List TrackPoint)) (p1 p2 : TrackPoint)
    (hpos : 0 < elapsedHours p1 p2) :
    analyze_speed maxSpeed [⟨some n, tt, segs⟩] =
      some (segs.flatMap fun s =>
        (s.zip s.tail).flatMap fun q => speedIssuesOfPair maxSpeed n q.1 q.2) ∧
    speedIssuesOfPair maxSpeed n p1 p2 =
      (if maxSpeed < haversine p1.lat p1.lon p2.lat p2.lon / elapsedHours p1 p2 then
        [⟨"speed", haversine p1.lat p1.lon p2.lat p2.lon / elapsedHours p1 p2,
          "Track " ++ n, p1.time⟩]
      else []) := by
  constructor
  · simp [analyze_speed, analyzeSpeedSegs_named]
  · simp only [speedIssuesOfPair]
    rw [if_pos hpos]

/-- Witness for C1 at a concrete input: two co-located points one second
apart; the elapsed time is positive, and since the haversine distance is
zero the speed `0` does not exceed the threshold `100`, so the pair emits
no issue. -/
theorem analyze_speed_scan_correct_witness :
    0 < elapsedHours ⟨40, -74, 10, 0, 0⟩ ⟨40, -74, 20, 1, 0⟩ ∧
    speedIssuesOfPair 100 "Test Track" ⟨40, -74, 10, 0, 0⟩ ⟨40, -74, 20, 1, 0⟩ = [] := by
  have h : 0 < elapsedHours (⟨40, -74, 10, 0, 0⟩ : TrackPoint) ⟨40, -74, 20, 1, 0⟩ := by
    norm_num [elapsedHours]
  refine ⟨h, ?_⟩
  rw [(analyze_speed_scan_correct 100 "Test Track" none [] _ _ h).2]
  rw [show haversine (⟨40, -74, 10, 0, 0⟩ : TrackPoint).lat
      (⟨40, -74, 10, 0, 0⟩ : TrackPoint).lon (⟨40, -74, 20, 1, 0⟩ : TrackPoint).lat
      (⟨40, -74, 20, 1, 0⟩ : TrackPoint).lon = 0 from haversine_self 40 (-74)]
  have hno : ¬ (100 : ℝ) <
      0 / elapsedHours (⟨40, -74, 10, 0, 0⟩ : TrackPoint) ⟨40, -74, 20, 1, 0⟩ := by
    rw [zero_div]
    norm_num
  rw [if_neg hno]

/-- **C2.** Zero-division policy: a consecutive pair with non-positive
elapsed time (identical or out-of-order timestamps) contributes no issue
whatever the distance between the points, and a scan over a segment all of
whose pairs have non-positive elapsed time completes normally with an
empty issue list (named or unnamed track alike); in the source the
division `distance / time_diff` sits under the guard `time_diff > 0`, so
it is never executed for such a pair. -/
theorem speed_zero_division_policy (maxSpeed : ℝ) (name? : Option String)
    (n : String) (p1 p2 : TrackPoint) (pts : List TrackPoint)
    (hnp : elapsedHours p1 p2 ≤ 0)
    (hall : ∀ q ∈ pts.zip pts.tail, elapsedHours q.1 q.2 ≤ 0) :
    speedIssuesOfPair maxSpeed n p1 p2 = [] ∧
    analyzeSpeedPairs maxSpeed name? pts = some [] := by
  constructor
  · simp only [speedIssuesOfPair]
    rw [if_neg (not_lt.mpr hnp)]
  · exact analyzeSpeedPairs_all_nonpos maxSpeed name? pts hall

/-- Witness for C2 at a concrete input: two points with identical
timestamps but far-apart coordinates; the pair is skipped and the scan of
the two-point segment (of an unnamed track) completes with no issues. -/
theorem speed_zero_division_policy_witness :
    elapsedHours ⟨0, 0, 0, 5, 0⟩ ⟨40, 70, 0, 5, 0⟩ ≤ 0 ∧
    (∀ q ∈ ([⟨0, 0, 0, 5, 0⟩, ⟨40, 70, 0, 5, 0⟩] : List TrackPoint).zip
        ([⟨0, 0, 0, 5, 0⟩, ⟨40, 70, 0, 5, 0⟩] : List TrackPoint).tail,
      elapsedHours q.1 q.2 ≤ 0) ∧
    speedIssuesOfPair 100 "T" ⟨0, 0, 0, 5, 0⟩ ⟨40, 70, 0, 5, 0⟩ = [] ∧
    analyzeSpeedPairs 100 none [⟨0, 0, 0, 5, 0⟩, ⟨40, 70, 0, 5, 0⟩] = some [] := by
  have h1 : elapsedHours (⟨0, 0, 0, 5, 0⟩ : TrackPoint) ⟨40, 70, 0, 5, 0⟩ ≤ 0 := by
    norm_num [elapsedHours]
  have h2 : ∀ q ∈ ([⟨0, 0, 0, 5, 0⟩, ⟨40, 70, 0, 5, 0⟩] : List TrackPoint).zip
      ([⟨0, 0, 0, 5, 0⟩, ⟨40, 70, 0, 5, 0⟩] : List TrackPoint).tail,
      elapsedHours q.1 q.2 ≤ 0 := by
    intro q hq
    simp only [List.tail_cons, List.zip_cons_cons, List.zip_nil_right,
      List.mem_singleton] at hq
    rw [hq]
    exact h1
  obtain ⟨ha, hb⟩ := speed_zero_division_policy 100 none "T" _ _ _ h1 h2
  exact ⟨h1, h2, ha, hb⟩

/-- **C3.** Elevation scan correctness: on a named track,
`analyze_elevation` returns exactly the concatenation, over every segment
and every consecutive point pair, of that pair's issues; a pair emits one
elevation issue — carrying the absolute elevation difference (rendered to
two decimals in the message) and the earlier point's timestamp — exactly
when that difference exceeds the threshold, with no time dimension
involved; concretely, elevations `10` and `30` yield one issue of value
`20` at threshold `5` and none at threshold `25`. -/
theorem analyze_elevation_scan_correct (maxChange : ℝ) (n : String)
    (tt : Option String) (segs : List (List TrackPoint)) :
    analyze_elevation maxChange [⟨some n, tt, segs⟩] =
      some (segs.flatMap fun s =>
        (s.zip s.tail).flatMap fun q => elevationIssuesOfPair maxChange n q.1 q.2) ∧
    (∀ p1 p2 : TrackPoint, elevationIssuesOfPair maxChange n p1 p2 =
      (if maxChange < |p2.ele - p1.ele| then
        [⟨"elevation", |p2.ele - p1.ele|, "Track " ++ n, p1.time⟩]
      else [])) ∧
    analyze_elevation 5 [⟨some n, tt, [[⟨0, 0, 10, 0, 0⟩, ⟨0, 0, 30, 1, 0⟩]]⟩] =
      some [⟨"elevation", 20, "Track " ++ n, 0⟩] ∧
    analyze_elevation 25 [⟨some n, tt, [[⟨0, 0, 10, 0, 0⟩, ⟨0, 0, 30, 1, 0⟩]]⟩] =
      some [] := by
  have habs : |(30 : ℝ) - 10| = 20 := by
    rw [show (30 : ℝ) - 10 = 20 by norm_num, abs_of_nonneg]
    norm_num
  refine ⟨?_, fun p1 p2 => rfl, ?_, ?_⟩
  · simp [analyze_elevation, analyzeElevationSegs_named]
  · simp [analyze_elevation, analyzeElevationSegs_named, elevationIssuesOfPair, habs]
    norm_num
  · simp [analyze_elevation, analyzeElevationSegs_named, elevationIssuesOfPair, habs]
    norm_num

/-- **C4.** Continuity scan correctness: on a named track,
`analyze_segment_continuity` returns exactly the concatenation, over every
consecutive pair of segments, of that pair's issues; a pair of non-empty
segments emits one continuity issue — carrying the gap in seconds
(rendered to two decimals in the message) and anchored at the last point
of the earlier segment — exactly when the gap from the last point of the
earlier segment to the first point of the later one exceeds the threshold;
a pair in which either segment is empty emits nothing and raises no
error. -/
theorem analyze_segment_continuity_correct (maxGap : ℝ) (n : String)
    (tt : Option String) (segs : List (List TrackPoint))
    (s1 s2 : List TrackPoint) (lastP firstP : TrackPoint)
    (h1 : s1.getLast? = some lastP) (h2 : s2.head? = some firstP) :
    analyze_segment_continuity maxGap [⟨some n, tt, segs⟩] =
      some ((segs.zip segs.tail).flatMap fun q =>
        continuityIssuesOfPair maxGap n q.1 q.2) ∧
    continuityIssuesOfPair maxGap n s1 s2 =
      (if maxGap < firstP.time - lastP.time then
        [⟨"continuity", firstP.time - lastP.time, "Track " ++ n, lastP.time⟩]
      else []) ∧
    (∀ s, continuityIssuesOfPair maxGap n [] s = []) ∧
    (∀ s, continuityIssuesOfPair maxGap n s [] = []) := by
  refine ⟨?_, ?_, fun s => rfl, fun s => ?_⟩
  · simp [analyze_segment_continuity, analyzeContinuityPairs_named]
  · simp only [continuityIssuesOfPair, h1, h2]
  · simp only [continuityIssuesOfPair]
    cases s.getLast? <;> rfl

/-- Witness for C4 at a concrete input: two singleton segments one second
apart; with threshold `0.1` seconds the theorem applies, and its per-pair
equation evaluates to exactly one continuity issue of value `1` anchored
at the earlier segment's last point. -/
theorem analyze_segment_continuity_correct_witness :
    ([⟨0, 0, 0, 0, 0⟩] : List TrackPoint).getLast? = some ⟨0, 0, 0, 0, 0⟩ ∧
    ([⟨0, 0, 0, 1, 0⟩] : List TrackPoint).head? = some ⟨0, 0, 0, 1, 0⟩ ∧
    continuityIssuesOfPair 0.1 "T" [⟨0, 0, 0, 0, 0⟩] [⟨0, 0, 0, 1, 0⟩] =
      [⟨"continuity", (1 : ℝ) - 0, "Track " ++ "T", 0⟩] := by
  have h1 : ([⟨0, 0, 0, 0, 0⟩] : List TrackPoint).getLast? = some ⟨0, 0, 0, 0, 0⟩ := rfl
  have h2 : ([⟨0, 0, 0, 1, 0⟩] : List TrackPoint).head? = some ⟨0, 0, 0, 1, 0⟩ := rfl
  refine ⟨h1, h2, ?_⟩
  have hc := (analyze_segment_continuity_correct 0.1 "T" none [] _ _ _ _ h1 h2).2.1
  rw [hc, if_pos]
  norm_num

/-- **C9.** Missing track name is a crash, not a placeholder: for a track
whose `<name>` child is absent, each scan raises (returns `none`, modelling
the `AttributeError` from `trk.find('name').text`) exactly when some
consecutive pair (of points, or of segments for the continuity scan)
violates the scan's threshold — i.e. whenever an issue would be emitted —
and otherwise completes without error, with an empty issue list. -/
theorem track_missing_name_crash (maxSpeed maxChange maxGap : ℝ) (t : Track)
    (h : t.name = none) :
    (analyzeSpeedSegs maxSpeed t.name t.segments = none ↔
      ∃ s ∈ t.segments, ∃ q ∈ s.zip s.tail, speedViolation maxSpeed q.1 q.2) ∧
    (analyzeSpeedSegs maxSpeed t.name t.segments = none ∨
      analyzeSpeedSegs maxSpeed t.name t.segments = some []) ∧
    (analyzeElevationSegs maxChange t.name t.segments = none ↔
      ∃ s ∈ t.segments, ∃ q ∈ s.zip s.tail, elevationViolation maxChange q.1 q.2) ∧
    (analyzeElevationSegs maxChange t.name t.segments = none ∨
      analyzeElevationSegs maxChange t.name t.segments = some []) ∧
    (analyzeContinuityPairs maxGap t.name t.segments = none ↔
      ∃ q ∈ t.segments.zip t.segments.tail, continuityViolation maxGap q.1 q.2) ∧
    (analyzeContinuityPairs maxGap t.name t.segments = none ∨
      analyzeContinuityPairs maxGap t.name t.segments = some []) := by
  rw [h]
  obtain ⟨hs1, hs2⟩ := analyzeSpeedSegs_none maxSpeed t.segments
  obtain ⟨he1, he2⟩ := analyzeElevationSegs_none maxChange t.segments
  obtain ⟨hc1, hc2⟩ := analyzeContinuityPairs_none maxGap t.segments
  exact ⟨hs1, hs2, he1, he2, hc1, hc2⟩

/-- Witness for C9 at a concrete input: a nameless track with one
triggering elevation pair.  The elevation scan crashes (`none`) while the
speed scan — which that input does not trigger, the two points being
co-located — completes with an empty issue list. -/
theorem track_missing_name_crash_witness :
    (Track.mk none none [[⟨0, 0, 10, 0, 0⟩, ⟨0, 0, 300, 1, 0⟩]]).name = none ∧
    (analyzeElevationSegs 100 none [[⟨0, 0, 10, 0, 0⟩, ⟨0, 0, 300, 1, 0⟩]] = none) ∧
    (analyzeSpeedSegs 100 none [[⟨0, 0, 10, 0, 0⟩, ⟨0, 0, 300, 1, 0⟩]] = some []) := by
  have h := track_missing_name_crash 100 100 300
    (Track.mk none none [[⟨0, 0, 10, 0, 0⟩, ⟨0, 0, 300, 1, 0⟩]]) rfl
  refine ⟨rfl, ?_, ?_⟩
  · refine h.2.2.1.mpr ?_
    refine ⟨[⟨0, 0, 10, 0, 0⟩, ⟨0, 0, 300, 1, 0⟩], List.mem_singleton.mpr rfl, (⟨0, 0, 10, 0, 0⟩, ⟨0, 0, 300, 1, 0⟩), ?_, ?_⟩
    · simp
    · show (100 : ℝ) < |(300 : ℝ) - 10|
      rw [show (300 : ℝ) - 10 = 290 by norm_num, abs_of_nonneg (by norm_num : (0:ℝ) ≤ 290)]
      norm_num
  · rcases h.2.1 with hn | hn
    · exfalso
      obtain ⟨s, hs, q, hq, hv⟩ := h.1.mp hn
      rw [List.mem_singleton] at hs
      rw [hs] at hq
      simp only [List.tail_cons, List.zip_cons_cons, List.zip_nil_right, List.mem_singleton] at hq
      rw [hq] at hv
      have hd : haversine (0 : ℝ) 0 0 0 = 0 := haversine_self 0 0
      have := hv.2
      rw [show haversine ((⟨0, 0, 10, 0, 0⟩ : TrackPoint)).lat ((⟨0, 0, 10, 0, 0⟩ : TrackPoint)).lon ((⟨0, 0, 300, 1, 0⟩ : TrackPoint)).lat ((⟨0, 0, 300, 1, 0⟩ : TrackPoint)).lon = 0 from haversine_self 0 0, zero_div] at this
      have h100 : (0 : ℝ) < 100 := by norm_num
      exact absurd this (not_lt.mpr (le_of_lt h100))
    · exact hn

/-- **C6** evaluated at a failing input (code bug): the claim describes
the trim/anchor survival rule of lines 216-243, but on any segment with
two or more points the very first cumulative-distance computation
(line 211) calls `_haversine_distance` through the class with a missing
argument and raises `TypeError`, so the command aborts with an error, exit
code 1 and no output — no point ever survives by the claimed rule.  The
repository's own tests (`test_strip_privacy_with_trim`) expect the
trimmed output instead. -/
theorem strip_privacy_trim_crash :
    strip_privacy ⟨milesToKm 0.25, milesToKm 0.25, none⟩
      (some [⟨some "t", none, [[⟨0, 0, some 1, none⟩, ⟨0, 1, some 2, none⟩]]⟩]) =
      ⟨none, some "Error processing GPX file", 1⟩ := rfl

/-- **C7** evaluated at a failing input (code bug): on the three-point
track of the repository's own test fixture, with default trim and no
anchor, the claimed round-trip (three output points, timestamps dropped)
does not happen: the first distance computation raises and the command
exits 1 writing nothing.  The conjunct shows the only non-empty segments
the transform can process — single-point ones — where the claimed field
policy does hold: `lat`, `lon`, `ele` kept, no timestamp in the output. -/
theorem strip_privacy_roundtrip_crash :
    strip_privacy ⟨milesToKm 0.25, milesToKm 0.25, none⟩
      (some [⟨some "Test Track", some "hiking",
        [[⟨40.7128, -74.0060, some 10, some 0⟩,
          ⟨40.7129, -74.0061, some 20, some 1⟩,
          ⟨40.7130, -74.0062, some 30, some 2⟩]]⟩]) =
      ⟨none, some "Error processing GPX file", 1⟩ ∧
    strip_privacy ⟨milesToKm 0.25, milesToKm 0.25, none⟩
      (some [⟨some "Test Track", some "hiking", [[⟨40.7128, -74.0060, some 10, some 0⟩]]⟩]) =
      ⟨some [⟨some "Test Track", some "hiking", [[⟨40.7128, -74.0060, some 10⟩]]⟩], none, 0⟩ :=
  ⟨rfl, rfl⟩

/-- **C8.** Transform-failure atomicity: every invocation either fully
succeeds — the written output is exactly the transform's result, no error
message, exit code 0 — or fails with no output artifact written, the
descriptive message on the error channel and exit code 1; the written
output always equals `parsed.bind (stripPrivacyRun cfg)`, so nothing
partial is ever written, and malformed input (`parsed = none`) is one of
the failing cases. -/
theorem transform_failure_atomicity (cfg : StripConfig)
    (parsed : Option (List GpxTrack)) :
    (strip_privacy cfg parsed).written = parsed.bind (stripPrivacyRun cfg) ∧
    ((strip_privacy cfg parsed).written = none ↔
      (strip_privacy cfg parsed).errMsg = some "Error processing GPX file" ∧
      (strip_privacy cfg parsed).exitCode = 1) ∧
    ((strip_privacy cfg parsed).written ≠ none ↔
      (strip_privacy cfg parsed).errMsg = none ∧
      (strip_privacy cfg parsed).exitCode = 0) := by
  cases parsed with
  | none => simp [strip_privacy]
  | some ts =>
    cases hr : stripPrivacyRun cfg ts with
    | none => simp [strip_privacy, hr]
    | some out => simp [strip_privacy, hr]

/-- **C10** (amended).  The privacy transform fails exactly when some
segment has two or more points, or an anchor is configured and some
segment is non-empty: the distance helper invoked through the class drops
its last parameter and raises on every call.  Hence it succeeds only on
inputs whose every segment has at most one point and in which, when an
anchor is configured, every segment is empty (the original claim demanded
no anchor at all for success). -/
theorem strip_privacy_success_characterization (cfg : StripConfig)
    (ts : List GpxTrack) :
    stripPrivacyRun cfg ts = none ↔
      ∃ t ∈ ts, ∃ s ∈ t.segments, 2 ≤ s.length ∨ (cfg.anchor ≠ none ∧ s ≠ []) :=
  stripPrivacyRun_none_iff cfg ts

/-- Counterexample to C10 as stated: with an anchor configured, an input
whose only segment is empty completes successfully (output written,
preserving the empty segment), although the claim allows success only
with no anchor configured. -/
theorem strip_privacy_anchor_empty_success :
    stripPrivacyRun ⟨milesToKm 0.25, milesToKm 0.25, some (40, -74)⟩
      [⟨some "morning ride", none, [[]]⟩] =
      some [⟨some "morning ride", none, [[]]⟩] := rfl

end Gpxray
